import Mathlib

/-!
Verification of the SecuronisDownloadManager download engine
(`src/core/download_manager.py`, `src/core/privacy_manager.py`) against its
natural-language specification.

The Python code is shallowly embedded: the registry of transfers becomes an
association list from ids to statuses, the lifecycle operations become pure
functions returning their boolean result, the updated registry and the
emitted signals, and the single-stream download loop of
`DownloadManager._download_single` together with the worker commit of
`DownloadManager._download_worker` become a small-step interpreter over an
explicit machine state driven by a list of events (each event is one atomic
action performed under the manager's lock, or one iteration of the
streaming loop).
-/

namespace SDM

/-- Transfer status strings used by `download_manager.py`
(`"Waiting" | "Downloading" | "Paused" | "Completed" | "Failed" | "Canceled"`). -/
inductive Status
  | waiting
  | downloading
  | paused
  | completed
  | failed
  | canceled
deriving DecidableEq, Repr

/-- Qt signals emitted by the lifecycle operations (only the ones the claims
observe). -/
inductive Sig
  | sigPaused (i : Nat)
  | sigResumed (i : Nat)
  | sigCanceled (i : Nat)
deriving DecidableEq, Repr

/-- The registry `self.downloads : dict[id, Download]`, restricted to the
status field, as an association list (Python dict keys are unique; lookup
takes the first match). -/
abbrev Registry := List (Nat × Status)

/-- Dictionary lookup `self.downloads.get(download_id)` restricted to the
status field. -/
def lookupD : Registry → Nat → Option Status
  | [], _ => none
  | (j, s) :: r, i => if j = i then some s else lookupD r i

/-- Assignment `download.status = s` for the entry with the given id. -/
def setStatus (r : Registry) (i : Nat) (s : Status) : Registry :=
  r.map (fun p => if p.1 = i then (p.1, s) else p)

/-- Deletion `del self.downloads[download_id]`. -/
def removeD (r : Registry) (i : Nat) : Registry :=
  r.filter (fun p => p.1 ≠ i)

/-- `DownloadManager.pause_download` (lines 138-147): succeeds exactly when
the id is present with status Downloading, moving it to Paused. -/
def pause_download (r : Registry) (i : Nat) : Bool × Registry × List Sig :=
  match lookupD r i with
  | some Status.downloading => (true, setStatus r i Status.paused, [Sig.sigPaused i])
  | _ => (false, r, [])

/-- `DownloadManager.resume_download` (lines 149-159): succeeds exactly when
the id is present with status Paused, moving it to Waiting (and re-enqueuing,
which the registry model does not track). -/
def resume_download (r : Registry) (i : Nat) : Bool × Registry × List Sig :=
  match lookupD r i with
  | some Status.paused => (true, setStatus r i Status.waiting, [Sig.sigResumed i])
  | _ => (false, r, [])

/-- `DownloadManager.cancel_download` (lines 161-170): succeeds exactly when
the id is present with status in `["Downloading", "Paused", "Waiting"]`,
moving it to Canceled. -/
def cancel_download (r : Registry) (i : Nat) : Bool × Registry × List Sig :=
  match lookupD r i with
  | some s =>
    if s = Status.downloading ∨ s = Status.paused ∨ s = Status.waiting then
      (true, setStatus r i Status.canceled, [Sig.sigCanceled i])
    else (false, r, [])
  | none => (false, r, [])

/-- `DownloadManager.delete_download` (lines 172-185): when the id is present,
first calls `cancel_download` if the status is in `["Downloading", "Waiting"]`
(note: Paused is not in that list), then deletes the entry. -/
def delete_download (r : Registry) (i : Nat) : Bool × Registry × List Sig :=
  match lookupD r i with
  | some s =>
    let c := if s = Status.downloading ∨ s = Status.waiting
             then cancel_download r i else (false, r, [])
    (true, removeD c.2.1 i, c.2.2)
  | none => (false, r, [])

theorem lookupD_removeD (r : Registry) (i : Nat) : lookupD (removeD r i) i = none := by
  induction r with
  | nil => rfl
  | cons p t ih =>
    by_cases h : p.1 = i
    · simpa [removeD, h] using ih
    · simpa [removeD, lookupD, h] using ih

/-- C7 counterexample: deleting a transfer whose status is Paused does not
cancel it — `delete_download` emits no Canceled signal (its status guard is
`["Downloading", "Waiting"]` only), contradicting the claim that delete first
cancels every active (non-terminal) transfer "including Paused". -/
theorem delete_paused_emits_no_cancel :
    (delete_download [(0, Status.paused)] 0).1 = true ∧
    (delete_download [(0, Status.paused)] 0).2.2 = [] := by decide

/-- C7 (amended): for every id present in the registry, `delete_download`
returns true and removes the entry, so a subsequent lookup of that id returns
absent; it first cancels the transfer exactly when its status is Downloading
or Waiting (a Paused transfer is removed without being canceled). -/
theorem delete_download_spec (r : Registry) (i : Nat) (s : Status)
    (h : lookupD r i = some s) :
    (delete_download r i).1 = true ∧
    lookupD (delete_download r i).2.1 i = none ∧
    (delete_download r i).2.2 =
      (if s = Status.downloading ∨ s = Status.waiting then [Sig.sigCanceled i] else []) := by
  cases s <;>
    simp [delete_download, cancel_download, h, lookupD_removeD]

/-- C7 witness: `delete_download_spec` applied to a one-entry registry holding
a Downloading transfer. -/
theorem delete_download_spec_witness :
    (delete_download [(5, Status.downloading)] 5).1 = true ∧
    lookupD (delete_download [(5, Status.downloading)] 5).2.1 5 = none ∧
    (delete_download [(5, Status.downloading)] 5).2.2 =
      (if Status.downloading = Status.downloading ∨ Status.downloading = Status.waiting
       then [Sig.sigCanceled 5] else []) :=
  delete_download_spec [(5, Status.downloading)] 5 Status.downloading (by decide)

/-- C10: pause succeeds iff the id is present with status Downloading, resume
iff present with status Paused, cancel iff present with status Downloading,
Paused or Waiting, delete iff present; and whenever an operation returns
false it leaves the registry (hence every transfer's status) unchanged. -/
theorem lifecycle_ops_spec (r : Registry) (i : Nat) :
    ((pause_download r i).1 = true ↔ lookupD r i = some Status.downloading) ∧
    ((resume_download r i).1 = true ↔ lookupD r i = some Status.paused) ∧
    ((cancel_download r i).1 = true ↔
      (lookupD r i = some Status.downloading ∨ lookupD r i = some Status.paused ∨
        lookupD r i = some Status.waiting)) ∧
    ((delete_download r i).1 = true ↔ (lookupD r i).isSome) ∧
    ((pause_download r i).1 = false → (pause_download r i).2.1 = r) ∧
    ((resume_download r i).1 = false → (resume_download r i).2.1 = r) ∧
    ((cancel_download r i).1 = false → (cancel_download r i).2.1 = r) ∧
    ((delete_download r i).1 = false → (delete_download r i).2.1 = r) := by
  cases h : lookupD r i with
  | none =>
    simp [pause_download, resume_download, cancel_download, delete_download, h]
  | some s =>
    cases s <;>
      simp [pause_download, resume_download, cancel_download, delete_download, h]

/-- C10 witness: `lifecycle_ops_spec` applied to a one-entry registry holding
a Paused transfer. -/
theorem lifecycle_ops_spec_witness :
    ((pause_download [(2, Status.paused)] 2).1 = true ↔
      lookupD [(2, Status.paused)] 2 = some Status.downloading) ∧
    ((resume_download [(2, Status.paused)] 2).1 = true ↔
      lookupD [(2, Status.paused)] 2 = some Status.paused) ∧
    ((cancel_download [(2, Status.paused)] 2).1 = true ↔
      (lookupD [(2, Status.paused)] 2 = some Status.downloading ∨
        lookupD [(2, Status.paused)] 2 = some Status.paused ∨
        lookupD [(2, Status.paused)] 2 = some Status.waiting)) ∧
    ((delete_download [(2, Status.paused)] 2).1 = true ↔
      (lookupD [(2, Status.paused)] 2).isSome) ∧
    ((pause_download [(2, Status.paused)] 2).1 = false →
      (pause_download [(2, Status.paused)] 2).2.1 = [(2, Status.paused)]) ∧
    ((resume_download [(2, Status.paused)] 2).1 = false →
      (resume_download [(2, Status.paused)] 2).2.1 = [(2, Status.paused)]) ∧
    ((cancel_download [(2, Status.paused)] 2).1 = false →
      (cancel_download [(2, Status.paused)] 2).2.1 = [(2, Status.paused)]) ∧
    ((delete_download [(2, Status.paused)] 2).1 = false →
      (delete_download [(2, Status.paused)] 2).2.1 = [(2, Status.paused)]) :=
  lifecycle_ops_spec [(2, Status.paused)] 2

/-- Proxy settings returned by `PrivacyManager.get_proxy_settings`
(`privacy_manager.py` lines 43-47 give the defaults). -/
structure ProxySettings where
  proxy_type : String
  proxy_address : String
  proxy_port : Nat
  proxy_username : String
  proxy_password : String
deriving DecidableEq, Repr

/-- `DownloadManager._get_proxies` (lines 575-604).  `torEnabled` is the value
of `PrivacyManager.is_tor_enabled()`, which returns
`self.settings['tor_enabled']` (`privacy_manager.py` lines 113-115).  The
result is the `proxies` dict handed to `requests`; an empty list means a
direct, unproxied connection.  The function has no failure path. -/
def get_proxies (privacyMode : String) (torEnabled : Bool)
    (torAddress : String) (torPort : Nat) (ps : ProxySettings) :
    List (String × String) :=
  if privacyMode = "Tor" ∧ torEnabled then
    [("http", "socks5://" ++ torAddress ++ ":" ++ toString torPort),
     ("https", "socks5://" ++ torAddress ++ ":" ++ toString torPort)]
  else if privacyMode = "Proxy" then
    if ps.proxy_type ≠ "None" then
      let auth := if ps.proxy_username ≠ "" ∧ ps.proxy_password ≠ ""
                  then ps.proxy_username ++ ":" ++ ps.proxy_password ++ "@"
                  else ""
      let u := ps.proxy_type.toLower ++ "://" ++ auth ++ ps.proxy_address
                 ++ ":" ++ toString ps.proxy_port
      [("http", u), ("https", u)]
    else []
  else []

/-- C6 counterexample: with privacy mode Relay (`"Tor"` in the source) and the
privacy provider reporting the relay as not enabled, `_get_proxies` returns
the empty proxy map — exactly the direct configuration Normal mode produces —
and raises no error, so the transfer proceeds over a direct connection
instead of failing with ProxyUnavailable/TransportUnavailable. -/
theorem relay_disabled_falls_back_to_direct :
    get_proxies "Tor" false "127.0.0.1" 9050 ⟨"None", "", 8080, "", ""⟩ = [] ∧
    get_proxies "Tor" false "127.0.0.1" 9050 ⟨"None", "", 8080, "", ""⟩ =
      get_proxies "Normal" true "127.0.0.1" 9050 ⟨"None", "", 8080, "", ""⟩ := by
  decide

/-- C6 (amended): for every relay address, port and proxy settings, a Relay
(`"Tor"`) transfer while the provider reports the relay disabled gets the
empty proxy map, i.e. it is silently downloaded over a direct unproxied
connection; no failure is produced. -/
theorem get_proxies_relay_disabled (ta : String) (tp : Nat) (ps : ProxySettings) :
    get_proxies "Tor" false ta tp ps = [] := rfl

/-- The fixed modern-browser User-Agent string from
`DownloadManager._get_headers` (line 616). -/
def browserDefaultUA : String :=
  "Mozilla/5.0 (Windows NT 10.0; Win64; x64) AppleWebKit/537.36 (KHTML, like Gecko) Chrome/91.0.4472.124 Safari/537.36"

/-- `DownloadManager._get_headers` (lines 606-623): User-Agent per
`user_agent_type` (`'Custom'` first, then `'Browser default'`, otherwise no
entry), and `headers['Referer'] = ''` when `send_referer` is false. -/
def get_headers (userAgentType customUserAgent : String) (sendReferer : Bool) :
    List (String × String) :=
  let h :=
    if userAgentType = "Custom" then [("User-Agent", customUserAgent)]
    else if userAgentType = "Browser default" then [("User-Agent", browserDefaultUA)]
    else []
  if sendReferer then h else h ++ [("Referer", "")]

/-- Association-list lookup on a header map (Python dict access). -/
def lookupHeader : List (String × String) → String → Option String
  | [], _ => none
  | (k, v) :: t, q => if k = q then some v else lookupHeader t q

/-- C9 counterexample: with `send_referer` configured false, the computed
header map is not missing the Referer entry — the code inserts
`Referer: ""` — so the Referer is present with an empty value, not absent as
the claim states. -/
theorem referer_not_absent_when_disabled :
    ¬ lookupHeader (get_headers "Browser default" "" false) "Referer" = none := by
  decide

/-- C9 (amended): the header map carries a User-Agent equal to the fixed
modern-browser string for `"Browser default"`, equal to the configured custom
string for `"Custom"`, and no User-Agent entry otherwise; and it carries a
Referer entry bound to the empty string if and only if `send_referer` is
false (suppression is by an empty value, never by absence). -/
theorem get_headers_spec (uat cua : String) (sr : Bool) :
    lookupHeader (get_headers uat cua sr) "User-Agent" =
      (if uat = "Custom" then some cua
       else if uat = "Browser default" then some browserDefaultUA else none) ∧
    lookupHeader (get_headers uat cua sr) "Referer" =
      (if sr then none else some "") := by
  by_cases h1 : uat = "Custom" <;> by_cases h2 : uat = "Browser default" <;>
    cases sr <;> simp [get_headers, lookupHeader, h1, h2]

/-- The range-support test of `DownloadManager._download_file` (line 319):
the `accept-ranges` response header must be present and equal to `"bytes"`. -/
def supportsRange (acceptRanges : Option String) : Bool :=
  acceptRanges == some "bytes"

/-- The strategy choice of `DownloadManager._download_file` (line 322):
chunked iff `supports_range and self.chunk_enabled and
download.size >= self.chunk_min_size`. -/
def chooseChunked (acceptRanges : Option String) (chunkEnabled : Bool)
    (size chunkMinSize : Int) : Bool :=
  supportsRange acceptRanges && chunkEnabled && decide (chunkMinSize ≤ size)

/-- C4: for every probed transfer (size ≥ 0), the executor takes the chunked
strategy iff the server reported `Accept-Ranges: bytes`, `chunk_enabled` is
true and the probed size is at least `chunk_min_size`; in every other case it
takes the single-stream strategy. -/
theorem chooseChunked_iff (ar : Option String) (ce : Bool) (size ms : Int)
    (_hprobed : 0 ≤ size) :
    chooseChunked ar ce size ms = true ↔
      (ar = some "bytes" ∧ ce = true ∧ ms ≤ size) := by
  simp [chooseChunked, supportsRange, Bool.and_eq_true, and_assoc]

/-- C4 witness: `chooseChunked_iff` at a concrete probed size. -/
theorem chooseChunked_iff_witness :
    chooseChunked (some "bytes") true 20971520 10485760 = true ↔
      (some "bytes" = some "bytes" ∧ true = true ∧ (10485760 : Int) ≤ 20971520) :=
  chooseChunked_iff (some "bytes") true 20971520 10485760 (by decide)

/-- The rename candidate `f"\x7bbase\x7d (\x7bcounter\x7d)\x7bext\x7d"`
built by the Auto rename branch of `_download_single` (line 349) and
`_download_in_chunks` (line 423). -/
def renameCandidate (base ext : String) (n : Nat) : String :=
  base ++ " (" ++ toString n ++ ")" ++ ext

/-- The Auto rename loop of `_download_single` (lines 345-351): starting from
the original target with counter 1, while the current name exists replace it
by the next candidate and bump the counter.  `ex` is `os.path.exists`
restricted to the target directory; the Python loop is bounded because the
file system is finite, which the embedding expresses with explicit fuel. -/
def renameLoop (ex : String → Bool) (base ext : String) :
    String → Nat → Nat → String
  | t, _, 0 => t
  | t, c, fuel + 1 =>
    if ex t then renameLoop ex base ext (renameCandidate base ext c) (c + 1) fuel
    else t

theorem renameLoop_reaches (ex : String → Bool) (base ext : String) (k : Nat)
    (hnotex : ex (renameCandidate base ext k) = false) :
    ∀ fuel j, j ≤ k → k - j < fuel →
      (∀ l, j ≤ l → l < k → ex (renameCandidate base ext l) = true) →
      renameLoop ex base ext (renameCandidate base ext j) (j + 1) fuel =
        renameCandidate base ext k := by
  intro fuel
  induction fuel with
  | zero => intro j _ hf _; omega
  | succ f ih =>
    intro j hjk hf hl
    by_cases hj : j = k
    · subst hj
      simp [renameLoop, hnotex]
    · have hjlt : j < k := lt_of_le_of_ne hjk hj
      have hexj : ex (renameCandidate base ext j) = true := hl j le_rfl hjlt
      rw [renameLoop, hexj]
      simp only [if_true]
      exact ih (j + 1) hjlt (by omega) (fun l h1 h2 => hl l (by omega) h2)

/-- C8: when the original target name exists, the Auto rename loop adopts the
candidate `"<base> (<k>)<ext>"` for the smallest counter k ≥ 1 whose name
does not exist in the target directory (the loop then assigns this name to
the transfer's filename, line 351). -/
theorem auto_rename_least (ex : String → Bool) (base ext target : String)
    (k fuel : Nat) (hk : 1 ≤ k) (hfuel : k < fuel)
    (hex : ex target = true)
    (hbelow : ∀ j, 1 ≤ j → j < k → ex (renameCandidate base ext j) = true)
    (hleast : ex (renameCandidate base ext k) = false) :
    renameLoop ex base ext target 1 fuel = renameCandidate base ext k := by
  obtain ⟨f, rfl⟩ : ∃ f, fuel = f + 1 := ⟨fuel - 1, by omega⟩
  rw [renameLoop, hex]
  simp only [if_true]
  exact renameLoop_reaches ex base ext k hleast f 1 hk (by omega)
    (fun l h1 h2 => hbelow l h1 h2)

/-- C8 witness: with `out.bin` and `out (1).bin` present, the loop adopts
`out (2).bin`, the smallest free candidate. -/
theorem auto_rename_least_witness :
    renameLoop (fun s => s == "out.bin" || s == "out (1).bin") "out" ".bin"
      "out.bin" 1 5 = renameCandidate "out" ".bin" 2 :=
  auto_rename_least (fun s => s == "out.bin" || s == "out (1).bin") "out" ".bin"
    "out.bin" 2 5 (by decide) (by decide) (by decide)
    (by
      intro j h1 h2
      have hj : j = 1 := by omega
      subst hj
      decide)
    (by decide)

/-- Machine state for one transfer driven through `_download_worker` and
`_download_single`: the status and byte counter of the `Download` object, the
number of copies of its id sitting in `self.download_queue`, the probed
`size`, the bytes the current GET response still has to stream (`none` when
no streaming loop is active), the pending boolean result of
`_download_single` awaiting the worker's commit, and whether the `.part`
temporary file and the final target file exist on disk. -/
structure MState where
  status : Status
  queued : Nat
  size : Nat
  downloaded : Nat
  remaining : Option Nat
  result : Option Bool
  part : Bool
  target : Bool
deriving DecidableEq, Repr

/-- Events: each is one atomic action of the manager (performed under
`downloads_lock`) or one iteration of the streaming loop.
`pauseEv`/`resumeEv`/`cancelEv` are the public lifecycle calls;
`startEv` is a worker dequeuing the id and entering `_download_single`
(lines 220-243 then 356-369: mark Downloading, issue the GET whose
Content-Length is `size`, open the `.part` file);
`readEv k` is one iteration of the 8 KiB loop (lines 370-385: first the
cooperative status check, which on pause/cancel returns False without
touching the `.part` file, then the write of `k` received bytes and the
increment of `downloaded`);
`finishEv` is the loop exhausting the stream and `shutil.move` publishing the
file (lines 386-393, no status check after the last chunk);
`commitEv` is the worker committing the result (lines 249-258: success sets
Completed unconditionally, failure sets Failed only if still Downloading). -/
inductive Ev
  | pauseEv
  | resumeEv
  | cancelEv
  | startEv
  | readEv (k : Nat)
  | finishEv
  | commitEv
deriving DecidableEq, Repr

/-- One step of the machine, mirroring the cited lines of
`download_manager.py`. -/
def step (s : MState) : Ev → MState
  | Ev.pauseEv =>
    if s.status = Status.downloading then { s with status := Status.paused } else s
  | Ev.resumeEv =>
    if s.status = Status.paused then
      { s with status := Status.waiting, queued := s.queued + 1 }
    else s
  | Ev.cancelEv =>
    if s.status = Status.downloading ∨ s.status = Status.paused ∨
        s.status = Status.waiting then
      { s with status := Status.canceled }
    else s
  | Ev.startEv =>
    if s.queued = 0 then s
    else if s.status = Status.canceled ∨ s.status = Status.completed ∨
        s.status = Status.failed then
      { s with queued := s.queued - 1 }
    else
      { s with queued := s.queued - 1, status := Status.downloading,
               remaining := some s.size, part := true }
  | Ev.readEv k =>
    match s.remaining with
    | some r =>
      if r = 0 then s
      else if s.status ≠ Status.downloading then
        { s with remaining := none, result := some false }
      else if k ≤ r ∧ 0 < k then
        { s with downloaded := s.downloaded + k, remaining := some (r - k) }
      else s
    | none => s
  | Ev.finishEv =>
    match s.remaining with
    | some 0 =>
      { s with remaining := none, result := some true,
               part := false, target := true }
    | _ => s
  | Ev.commitEv =>
    match s.result with
    | some true => { s with status := Status.completed, result := none }
    | some false =>
      { s with result := none,
               status := if s.status = Status.downloading then Status.failed
                         else s.status }
    | none => s

/-- Run a list of events from a state. -/
def runEvs (s : MState) (es : List Ev) : MState := es.foldl step s

/-- The state right after `add_download` of a transfer whose probe will
report Content-Length `sz`: status Waiting, one queue entry, nothing
downloaded, no files. -/
def init (sz : Nat) : MState :=
  { status := Status.waiting, queued := 1, size := sz, downloaded := 0,
    remaining := none, result := none, part := false, target := false }

/-- C1: a probed single-stream transfer of size 2 downloads one byte, is
paused, resumed and re-dispatched; the new GET restarts the stream from the
beginning but `downloaded` is never reset, so while the transfer is still
Downloading (not terminal) the counter reads 3 > size = 2, violating
`downloaded ≤ size`. -/
theorem downloaded_exceeds_size_after_resume :
    (runEvs (init 2) [Ev.startEv, Ev.readEv 1, Ev.pauseEv, Ev.readEv 1,
      Ev.commitEv, Ev.resumeEv, Ev.startEv, Ev.readEv 2]).status =
        Status.downloading ∧
    (runEvs (init 2) [Ev.startEv, Ev.readEv 1, Ev.pauseEv, Ev.readEv 1,
      Ev.commitEv, Ev.resumeEv, Ev.startEv, Ev.readEv 2]).size <
    (runEvs (init 2) [Ev.startEv, Ev.readEv 1, Ev.pauseEv, Ev.readEv 1,
      Ev.commitEv, Ev.resumeEv, Ev.startEv, Ev.readEv 2]).downloaded := by
  decide

/-- C2: a transfer of size 1 streams its whole body, is canceled after the
last chunk (status Canceled, a terminal state), the loop then exits without a
further status check and the worker commits success, setting Completed
unconditionally — the transition Canceled → Completed occurs, which is not an
edge of the state machine. -/
theorem canceled_overwritten_by_completed :
    (runEvs (init 1) [Ev.startEv, Ev.readEv 1, Ev.cancelEv]).status =
      Status.canceled ∧
    (runEvs (init 1) [Ev.startEv, Ev.readEv 1, Ev.cancelEv, Ev.finishEv,
      Ev.commitEv]).status = Status.completed := by
  decide

/-- C3: a single-stream transfer of size 2 is canceled mid-stream; the
download loop exits at the cooperative status check (`return False`), which
performs no cleanup, so after the terminal status Canceled the `.part`
temporary file still exists on disk. -/
theorem part_file_survives_cancel :
    (runEvs (init 2) [Ev.startEv, Ev.readEv 1, Ev.cancelEv, Ev.readEv 1,
      Ev.commitEv]).status = Status.canceled ∧
    (runEvs (init 2) [Ev.startEv, Ev.readEv 1, Ev.cancelEv, Ev.readEv 1,
      Ev.commitEv]).part = true := by
  decide

/-- The segment ranges computed by `DownloadManager._download_in_chunks`
(lines 430-447): `chunk_size = download.size // self.chunk_count`, and for
each `i in range(self.chunk_count)`, `start = i * chunk_size` and
`end = start + chunk_size - 1 if i < self.chunk_count - 1 else
download.size - 1`.  Endpoints are integers because Python's `end` can be
negative when `chunk_size` is 0; `//` on the nonnegative operands here is
floor division, i.e. `Nat` division. -/
def chunkRanges (size count : Nat) : List (Int × Int) :=
  (List.range count).map (fun (i : Nat) =>
    ((i : Int) * ((size / count : Nat) : Int),
     if i < count - 1
     then (i : Int) * ((size / count : Nat) : Int) + ((size / count : Nat) : Int) - 1
     else (size : Int) - 1))

theorem chunkRanges_length (size count : Nat) :
    (chunkRanges size count).length = count := by
  simp only [chunkRanges, List.length_map, List.length_range]

theorem chunkRanges_getElem? (size count i : Nat) (h : i < count) :
    (chunkRanges size count)[i]? =
      some ((i : Int) * ((size / count : Nat) : Int),
        if i < count - 1
        then (i : Int) * ((size / count : Nat) : Int) + ((size / count : Nat) : Int) - 1
        else (size : Int) - 1) := by
  simp only [chunkRanges, List.getElem?_map, List.getElem?_range h, Option.map_some']

theorem chunkRanges_idx_lt (size count i : Nat) (p : Int × Int)
    (h : (chunkRanges size count)[i]? = some p) : i < count := by
  by_contra hn
  push_neg at hn
  rw [List.getElem?_eq_none (by simpa [chunkRanges_length] using hn)] at h
  exact Option.noConfusion h

theorem chunk_mul_le (size count i : Nat) (h : i ≤ count) :
    i * (size / count) ≤ size := by
  calc i * (size / count) ≤ count * (size / count) := Nat.mul_le_mul_right _ h
    _ = size / count * count := Nat.mul_comm ..
    _ ≤ size := Nat.div_mul_le_self size count

/-- C5: for a segmented transfer with probed size > 0 and chunk count > 0,
the computed ranges partition `[0, size-1]` into `count` contiguous,
non-overlapping, inclusive-on-both-ends byte ranges in index order: there are
`count` ranges, all lie inside `[0, size-1]`, the first starts at 0 and the
last ends at `size - 1` (absorbing the remainder), every range except the
last has width `size / count`, each range starts right after its predecessor
ends, ranges with smaller index lie strictly before ranges with larger index,
and every byte of `[0, size-1]` is covered by some range. -/
theorem chunkRanges_partition (size count : Nat) (_hs : 0 < size) (hc : 0 < count) :
    (chunkRanges size count).length = count ∧
    (∀ (i : Nat) (st en : Int), (chunkRanges size count)[i]? = some (st, en) →
       0 ≤ st ∧ en ≤ (size : Int) - 1) ∧
    (∀ (st en : Int), (chunkRanges size count)[0]? = some (st, en) → st = 0) ∧
    (∀ (st en : Int), (chunkRanges size count)[count - 1]? = some (st, en) →
       en = (size : Int) - 1) ∧
    (∀ (i : Nat) (st en : Int), i < count - 1 →
       (chunkRanges size count)[i]? = some (st, en) →
       en - st + 1 = ((size / count : Nat) : Int)) ∧
    (∀ (i : Nat) (st en st2 en2 : Int), (chunkRanges size count)[i]? = some (st, en) →
       (chunkRanges size count)[i + 1]? = some (st2, en2) → st2 = en + 1) ∧
    (∀ (i j : Nat) (sti eni stj enj : Int), i < j →
       (chunkRanges size count)[i]? = some (sti, eni) →
       (chunkRanges size count)[j]? = some (stj, enj) → eni < stj) ∧
    (∀ b : Nat, b < size → ∃ (i : Nat) (st en : Int), i < count ∧
       (chunkRanges size count)[i]? = some (st, en) ∧
       st ≤ (b : Int) ∧ (b : Int) ≤ en) := by
  refine ⟨chunkRanges_length size count, ?_, ?_, ?_, ?_, ?_, ?_, ?_⟩
  · intro i st en h
    have hi := chunkRanges_idx_lt size count i (st, en) h
    rw [chunkRanges_getElem? size count i hi] at h
    simp only [Option.some.injEq, Prod.mk.injEq] at h
    obtain ⟨hst, hen⟩ := h
    constructor
    · rw [← hst]
      exact mul_nonneg (Int.natCast_nonneg i) (Int.natCast_nonneg _)
    · rw [← hen]
      by_cases hic : i < count - 1
      · rw [if_pos hic]
        have h3 : (i + 1) * (size / count) ≤ size :=
          chunk_mul_le size count (i + 1) (by omega)
        have h4 : ((i : Int) + 1) * ((size / count : Nat) : Int) ≤ (size : Int) := by
          exact_mod_cast h3
        linarith
      · rw [if_neg hic]
  · intro st en h
    rw [chunkRanges_getElem? size count 0 hc] at h
    simp only [Option.some.injEq, Prod.mk.injEq] at h
    obtain ⟨hst, _⟩ := h
    rw [← hst]
    simp
  · intro st en h
    rw [chunkRanges_getElem? size count (count - 1) (by omega),
        if_neg (lt_irrefl _)] at h
    simp only [Option.some.injEq, Prod.mk.injEq] at h
    exact h.2.symm
  · intro i st en hic h
    rw [chunkRanges_getElem? size count i (by omega), if_pos hic] at h
    simp only [Option.some.injEq, Prod.mk.injEq] at h
    obtain ⟨hst, hen⟩ := h
    rw [← hst, ← hen]
    ring
  · intro i st en st2 en2 h1 h2
    have hi2 : i + 1 < count := chunkRanges_idx_lt size count (i + 1) (st2, en2) h2
    have hic : i < count - 1 := by omega
    rw [chunkRanges_getElem? size count i (by omega), if_pos hic] at h1
    rw [chunkRanges_getElem? size count (i + 1) hi2] at h2
    simp only [Option.some.injEq, Prod.mk.injEq] at h1 h2
    obtain ⟨hst, hen⟩ := h1
    obtain ⟨hst2, _⟩ := h2
    rw [← hst2, ← hen]
    push_cast
    ring
  · intro i j sti eni stj enj hij h1 h2
    have hj : j < count := chunkRanges_idx_lt size count j (stj, enj) h2
    have hic : i < count - 1 := by omega
    rw [chunkRanges_getElem? size count i (by omega), if_pos hic] at h1
    rw [chunkRanges_getElem? size count j hj] at h2
    simp only [Option.some.injEq, Prod.mk.injEq] at h1 h2
    obtain ⟨_, hen⟩ := h1
    obtain ⟨hstj, _⟩ := h2
    have hnat : (i + 1) * (size / count) ≤ j * (size / count) :=
      Nat.mul_le_mul_right _ (by omega)
    have hcast : ((i : Int) + 1) * ((size / count : Nat) : Int) ≤
        (j : Int) * ((size / count : Nat) : Int) := by exact_mod_cast hnat
    rw [← hen, ← hstj]
    linarith
  · intro b hb
    by_cases hcs : size / count = 0
    · refine ⟨count - 1, ((count - 1 : Nat) : Int) * ((size / count : Nat) : Int),
        (size : Int) - 1, by omega, ?_, ?_, by omega⟩
      · rw [chunkRanges_getElem? size count (count - 1) (by omega),
            if_neg (lt_irrefl _)]
      · rw [hcs]
        simp
    · by_cases hbc : b / (size / count) < count - 1
      · refine ⟨b / (size / count),
          ((b / (size / count) : Nat) : Int) * ((size / count : Nat) : Int),
          ((b / (size / count) : Nat) : Int) * ((size / count : Nat) : Int) +
            ((size / count : Nat) : Int) - 1,
          by omega, ?_, ?_, ?_⟩
        · rw [chunkRanges_getElem? size count (b / (size / count)) (by omega),
              if_pos hbc]
        · exact_mod_cast Nat.div_mul_le_self b (size / count)
        · have hmod := Nat.div_add_mod b (size / count)
          have hlt := Nat.mod_lt b (Nat.pos_of_ne_zero hcs)
          have h1 : b < b / (size / count) * (size / count) + size / count := by
            linarith [hmod, hlt]
          have h2 : (b : Int) <
              ((b / (size / count) : Nat) : Int) * ((size / count : Nat) : Int) +
                ((size / count : Nat) : Int) := by exact_mod_cast h1
          linarith
      · refine ⟨count - 1, ((count - 1 : Nat) : Int) * ((size / count : Nat) : Int),
          (size : Int) - 1, by omega, ?_, ?_, by omega⟩
        · rw [chunkRanges_getElem? size count (count - 1) (by omega),
              if_neg (lt_irrefl _)]
        · have h1 : (count - 1) * (size / count) ≤
              b / (size / count) * (size / count) :=
            Nat.mul_le_mul_right _ (by omega)
          have h2 : b / (size / count) * (size / count) ≤ b :=
            Nat.div_mul_le_self b (size / count)
          exact_mod_cast le_trans h1 h2

/-- C5 witness: `chunkRanges_partition` at size 5 with 2 chunks
(ranges `[0,1]` and `[2,4]`). -/
theorem chunkRanges_partition_witness :
    (chunkRanges 5 2).length = 2 ∧
    (∀ (i : Nat) (st en : Int), (chunkRanges 5 2)[i]? = some (st, en) →
       0 ≤ st ∧ en ≤ (5 : Int) - 1) ∧
    (∀ (st en : Int), (chunkRanges 5 2)[0]? = some (st, en) → st = 0) ∧
    (∀ (st en : Int), (chunkRanges 5 2)[2 - 1]? = some (st, en) →
       en = (5 : Int) - 1) ∧
    (∀ (i : Nat) (st en : Int), i < 2 - 1 →
       (chunkRanges 5 2)[i]? = some (st, en) →
       en - st + 1 = ((5 / 2 : Nat) : Int)) ∧
    (∀ (i : Nat) (st en st2 en2 : Int), (chunkRanges 5 2)[i]? = some (st, en) →
       (chunkRanges 5 2)[i + 1]? = some (st2, en2) → st2 = en + 1) ∧
    (∀ (i j : Nat) (sti eni stj enj : Int), i < j →
       (chunkRanges 5 2)[i]? = some (sti, eni) →
       (chunkRanges 5 2)[j]? = some (stj, enj) → eni < stj) ∧
    (∀ b : Nat, b < 5 → ∃ (i : Nat) (st en : Int), i < 2 ∧
       (chunkRanges 5 2)[i]? = some (st, en) ∧
       st ≤ (b : Int) ∧ (b : Int) ≤ en) :=
  chunkRanges_partition 5 2 (by decide) (by decide)

end SDM
